import Mathlib

/-!
A Lean model of the mesh-ingestion component of ComfyUI-Paint3D-Nodes
(`Paint3D/paint3d/models/mesh.py`), together with proofs about it.

The Python code is shallowly embedded: Python strings are Lean `String`s
(manipulated through their character lists), Python lists are Lean `List`s,
torch tensors are lists of rows, float values are `ℝ` (exact arithmetic in
place of float32), and raising an exception is returning `Except.error`.
Filesystem writes and moves are recorded as explicit effect values.
-/

namespace Paint3D

/-- Python exception classes that the modelled code can raise. -/
inductive PyError
  | valueError
  | indexError
  | runtimeError
  | nameError
deriving DecidableEq

/-- Whitespace characters recognised by Python str.split() with no separator. -/
def isPySpace (c : Char) : Bool :=
  c == ' ' || c == '\t' || c == '\n' || c == '\r' || c == '\x0b' || c == '\x0c'

/-- Helper for pySplitWs: walks the characters accumulating the current token. -/
def splitWsGo : List Char → List Char → List (List Char)
  | [], cur => if cur.isEmpty then [] else [cur.reverse]
  | c :: cs, cur =>
    if isPySpace c then
      if cur.isEmpty then splitWsGo cs [] else cur.reverse :: splitWsGo cs []
    else splitWsGo cs (c :: cur)

/-- Model of Python str.split() with no separator: split on runs of whitespace,
dropping empty tokens. -/
def pySplitWs (s : String) : List String :=
  (splitWsGo s.data []).map (fun l => ⟨l⟩)

/-- Helper for pySplitSep. -/
def splitSepGo (sep : Char) : List Char → List Char → List (List Char)
  | [], cur => [cur.reverse]
  | c :: cs, cur =>
    if c == sep then cur.reverse :: splitSepGo sep cs [] else splitSepGo sep cs (c :: cur)

/-- Model of Python str.split(sep) with a one-character separator: empty tokens are
kept, and the result is never the empty list. -/
def pySplitSep (s : String) (sep : Char) : List String :=
  (splitSepGo sep s.data []).map (fun l => ⟨l⟩)

/-- Strip Python whitespace from both ends of a character list. -/
def stripWs (l : List Char) : List Char :=
  ((l.dropWhile isPySpace).reverse.dropWhile isPySpace).reverse

/-- Consume an optional leading sign; returns (isNegative, remainder). -/
def parseSign : List Char → Bool × List Char
  | '-' :: rest => (true, rest)
  | '+' :: rest => (false, rest)
  | l => (false, l)

/-- Decimal value of a digit character. -/
def digitVal (c : Char) : ℕ := c.toNat - '0'.toNat

/-- Accumulate a decimal numeral left to right. -/
def digitsToNat : List Char → ℕ → ℕ
  | [], acc => acc
  | c :: cs, acc => digitsToNat cs (acc * 10 + digitVal c)

/-- Model of Python int(str): optional surrounding whitespace, an optional sign and a
nonempty run of digits.  (Underscore separators are not modelled.)  `none` models a
raised ValueError. -/
def parseIntChars (l : List Char) : Option ℤ :=
  let (neg, rest) := parseSign (stripWs l)
  if rest.isEmpty || !(rest.all Char.isDigit) then none
  else
    let n : ℤ := digitsToNat rest 0
    some (if neg then -n else n)

/-- Model of Python float(str) for decimal literals: optional sign, digits with an
optional fractional part, and an optional decimal exponent.  The value is kept as an
exact rational; inf/nan and underscore separators are not modelled.  `none` models a
raised ValueError. -/
def parseFloatChars (l : List Char) : Option ℚ :=
  let (neg, rest) := parseSign (stripWs l)
  let ip := rest.takeWhile Char.isDigit
  let r1 := rest.dropWhile Char.isDigit
  let fpr2 : List Char × List Char :=
    match r1 with
    | '.' :: t => (t.takeWhile Char.isDigit, t.dropWhile Char.isDigit)
    | _ => ([], r1)
  let fp := fpr2.1
  let r2 := fpr2.2
  if ip.isEmpty && fp.isEmpty then none
  else
    let mant : ℚ := (digitsToNat ip 0 : ℚ) + (digitsToNat fp 0 : ℚ) / (10 : ℚ) ^ fp.length
    let sgn : ℚ := if neg then -1 else 1
    match r2 with
    | [] => some (sgn * mant)
    | e :: t =>
      if e == 'e' || e == 'E' then
        match parseIntChars t with
        | some ex => some (sgn * mant * (10 : ℚ) ^ ex)
        | none => none
      else none

/-- int() lifted to the Except model. -/
def pyIntE (s : String) : Except PyError ℤ :=
  match parseIntChars s.data with
  | some n => .ok n
  | none => .error .valueError

/-- float() lifted to the Except model. -/
def pyFloatE (s : String) : Except PyError ℚ :=
  match parseFloatChars s.data with
  | some q => .ok q
  | none => .error .valueError

/-- Starts-with test on character lists (second argument is the candidate prefix). -/
def listStartsWith : List Char → List Char → Bool
  | _, [] => true
  | [], _ :: _ => false
  | c :: cs, p :: ps => c == p && listStartsWith cs ps

/-- Ends-with test on character lists. -/
def listEndsWith (l suf : List Char) : Bool :=
  listStartsWith l.reverse suf.reverse

/-- Index of the first occurrence of sub in hay, if any (model of str.find). -/
def findSub (hay sub : List Char) : Option ℕ :=
  if listStartsWith hay sub then some 0
  else
    match hay with
    | [] => none
    | _ :: t => (findSub t sub).map (· + 1)

/-- Model of Python str.find: index of the first occurrence, or -1. -/
def pyFind (s sub : String) : ℤ :=
  match findSub s.data sub.data with
  | some i => (i : ℤ)
  | none => -1

/-- Model of the Python `sub in s` substring test, used for path dispatch. -/
def strContains (s sub : String) : Bool :=
  (findSub s.data sub.data).isSome

/-- Splits at the last occurrence of sep: some (before, after) such that
l = before ++ sep :: after, with sep not occurring in after. -/
def splitLast (sep : Char) : List Char → Option (List Char × List Char)
  | [] => none
  | c :: cs =>
    match splitLast sep cs with
    | some (b, a) => some (c :: b, a)
    | none => if c == sep then some ([], cs) else none

/-- Model of os.path.splitext on POSIX paths: split off the extension at the last
dot of the basename, unless the basename consists only of leading dots. -/
def splitextChars (p : List Char) : List Char × List Char :=
  let dirbase : List Char × List Char :=
    match splitLast '/' p with
    | some (d, b) => (d ++ ['/'], b)
    | none => ([], p)
  let dir := dirbase.1
  let base := dirbase.2
  let lead := base.takeWhile (fun c => c == '.')
  let rest := base.dropWhile (fun c => c == '.')
  match splitLast '.' rest with
  | some (stem, ext) => (dir ++ lead ++ stem, '.' :: ext)
  | none => (p, [])

/-- Root part of os.path.splitext. -/
def splitextRoot (s : String) : String := ⟨(splitextChars s.data).1⟩

/-- Extension part of os.path.splitext. -/
def splitextExt (s : String) : String := ⟨(splitextChars s.data).2⟩

/-- Model of os.path.dirname on POSIX paths. -/
def pyDirname (s : String) : String :=
  match splitLast '/' s.data with
  | none => ⟨[]⟩
  | some (d, _) =>
    let head := d ++ ['/']
    if head.all (fun c => c == '/') then ⟨head⟩
    else ⟨(head.reverse.dropWhile (fun c => c == '/')).reverse⟩

/-- Model of os.path.join for the only uses in this file: the second component is a
plain relative filename. -/
def pyJoin (a b : String) : String :=
  if a.data.isEmpty then b
  else if listEndsWith a.data ['/'] then a ++ b
  else a ++ ⟨['/']⟩ ++ b

/-- A row of the float32 vertex tensor (`self.vertices` has three columns). -/
structure Vec3 where
  x : ℝ
  y : ℝ
  z : ℝ

/-- Euclidean norm of a vertex row (torch.norm with p=2 along dim 1). -/
noncomputable def vnorm (v : Vec3) : ℝ :=
  Real.sqrt (v.x ^ 2 + v.y ^ 2 + v.z ^ 2)

/-- Per-axis mean of a list of vertex rows (torch mean over dim 0). -/
noncomputable def vmean (l : List Vec3) : Vec3 :=
  ⟨(l.map Vec3.x).sum / l.length, (l.map Vec3.y).sum / l.length,
   (l.map Vec3.z).sum / l.length⟩

/-- Maximum of a list of reals; none models the exception torch raises when the
reduction input is empty. -/
noncomputable def maxListR : List ℝ → Option ℝ
  | [] => none
  | a :: l => some (l.foldl max a)

/-- The state of a Mesh object.  `material_cvt` abstracts the (never assigned)
converted-texture image as an opaque presence flag; `original_center` and
`original_scale` are given placeholder values 0 at construction and are
overwritten by normalize_mesh before the constructor returns. -/
structure MeshState where
  vertices : List Vec3
  faces : List (List ℤ)
  vt : Option (List (ℚ × ℚ))
  ft : Option (List (List ℤ))
  mesh_path : String
  material_cvt : Option Unit
  material_num : ℕ
  original_center : Vec3
  original_scale : ℝ

/-- Mesh.normalize_mesh (mesh.py lines 142-150): store the per-axis mean, recenter,
store the maximum recentered norm, divide by it, multiply by target_scale and add
mesh_dy to the second axis.  There is no zero-scale check in the source: the
division simply proceeds (producing non-finite float32 values at runtime when the
scale is zero; Lean's total division stands in for them).  For an empty vertex
tensor the dim-1 norm reduction raises, modelled by the error branch. -/
noncomputable def normalizeMesh (m : MeshState) (target_scale mesh_dy : ℝ) :
    Except PyError MeshState :=
  let verts := m.vertices
  let c := vmean verts
  let centered := verts.map (fun v => Vec3.mk (v.x - c.x) (v.y - c.y) (v.z - c.z))
  match maxListR (centered.map vnorm) with
  | none => .error .indexError
  | some s =>
    let divided := centered.map (fun v => Vec3.mk (v.x / s) (v.y / s) (v.z / s))
    let scaled := divided.map (fun v =>
      Vec3.mk (v.x * target_scale) (v.y * target_scale) (v.z * target_scale))
    let shifted := scaled.map (fun v => Vec3.mk v.x (v.y + mesh_dy) v.z)
    .ok ⟨shifted, m.faces, m.vt, m.ft, m.mesh_path, m.material_cvt, m.material_num, c, s⟩

/-- Error taxonomy of the specification document. -/
inductive SpecError
  | degenerateMesh
deriving DecidableEq

/-- Modelled from the spec (§4.6 Normalizer): identical to the source transform
except that it fails with DegenerateMesh when the maximum recentered norm is zero.
Written only for comparison with `normalizeMesh`, which is translated from the
source. -/
noncomputable def normalizeMeshSpec (m : MeshState) (target_scale mesh_dy : ℝ) :
    Except SpecError MeshState :=
  let verts := m.vertices
  let c := vmean verts
  let centered := verts.map (fun v => Vec3.mk (v.x - c.x) (v.y - c.y) (v.z - c.z))
  match maxListR (centered.map vnorm) with
  | none => .error .degenerateMesh
  | some s =>
    if s = 0 then .error .degenerateMesh
    else
      let divided := centered.map (fun v => Vec3.mk (v.x / s) (v.y / s) (v.z / s))
      let scaled := divided.map (fun v =>
        Vec3.mk (v.x * target_scale) (v.y * target_scale) (v.z * target_scale))
      let shifted := scaled.map (fun v => Vec3.mk v.x (v.y + mesh_dy) v.z)
      .ok ⟨shifted, m.faces, m.vt, m.ft, m.mesh_path, m.material_cvt, m.material_num, c, s⟩

/-- Global minimum of an integer tensor (torch .min() with no dim argument);
none models the RuntimeError torch raises when the tensor is empty. -/
def ftMinAll (rows : List (List ℤ)) : Option ℤ :=
  match rows.flatten with
  | [] => none
  | a :: l => some (l.foldl min a)

/-- Mesh.has_valid_uv_mapping (mesh.py lines 93-106): false when vt or ft is absent,
false when vt is empty, then false when ft.min() <= -1, else true.  The result is
`none` exactly when the .min() reduction raises (ft present but empty). -/
def hasValidUvMapping (m : MeshState) : Option Bool :=
  match m.vt, m.ft with
  | none, _ => some false
  | some _, none => some false
  | some vt, some ft =>
    if vt.length = 0 then some false
    else
      match ftMinAll ft with
      | none => none
      | some mn => if mn ≤ -1 then some false else some true

/-- A glTF primitive: its material index plus an opaque stand-in for its other
JSON keys. -/
structure GltfPrimitive where
  material : ℕ
  payload : ℕ
deriving DecidableEq

/-- A glTF material: its name plus an opaque stand-in for its other keys. -/
structure GltfMaterial where
  name : String
  payload : ℕ
deriving DecidableEq

/-- A glTF buffer entry: its uri plus an opaque stand-in for its other keys. -/
structure GltfBuffer where
  uri : String
  payload : ℕ
deriving DecidableEq

/-- A glTF mesh: its primitive list plus an opaque stand-in for its other keys. -/
structure GltfMesh where
  primitives : List GltfPrimitive
  payload : ℕ
deriving DecidableEq

/-- A glTF document, restricted to the keys the code reads or writes. -/
structure GltfDoc where
  meshes : List GltfMesh
  materials : List GltfMaterial
  buffers : List GltfBuffer
  payload : ℕ
deriving DecidableEq

/-- Filesystem operations the modelled code performs. -/
inductive FsEffect
  | read (path : String)
  | write (path : String) (doc : GltfDoc)
  | mkdir (path : String)
  | move (src dst : String)
deriving DecidableEq

/-- The inner loop over remove_mesh_part_names (mesh.py lines 116-119): scan the
exclusion entries in order and stop at the first whose find() result is >= 0. -/
def nameMatches (material_name : String) : List String → Bool
  | [] => false
  | r :: rest =>
    if pyFind material_name r ≥ 0 then true else nameMatches material_name rest

/-- The primitive loop of preprocess_gltf (mesh.py lines 112-121): look up each
primitive's material name and keep the primitive unless the name matches; an
out-of-range material index raises IndexError. -/
def filterPrimitives (materials : List GltfMaterial) (subs : List String) :
    List GltfPrimitive → Except PyError (List GltfPrimitive)
  | [] => .ok []
  | p :: ps =>
    match materials.get? p.material with
    | none => .error .indexError
    | some mat =>
      match filterPrimitives materials subs ps with
      | .error e => .error e
      | .ok rest => .ok (if nameMatches mat.name subs then rest else p :: rest)

/-- The buffer loop of preprocess_gltf (mesh.py lines 126-134). -/
def filterBuffers (subs : List String) : List GltfBuffer → List GltfBuffer
  | [] => []
  | b :: bs =>
    if nameMatches b.uri subs then filterBuffers subs bs else b :: filterBuffers subs bs

/-- Mesh.preprocess_gltf (mesh.py lines 108-140).  The document read from mesh_path
is passed in as `doc`; the effect list records the read and the single write of the
filtered document to splitext(mesh_path)[0] + "_removed.gltf", which is also the
returned path.  When an exclusion list is None its whole step is skipped. -/
def preprocessGltf (doc : GltfDoc) (mesh_path : String)
    (remove_mesh_part_names remove_unsupported_buffers : Option (List String)) :
    Except PyError (List FsEffect × String) := do
  let doc1 ←
    match remove_mesh_part_names with
    | none => Except.ok doc
    | some subs =>
      match doc.meshes with
      | [] => Except.error PyError.indexError
      | m0 :: rest =>
        match filterPrimitives doc.materials subs m0.primitives with
        | .error e => Except.error e
        | .ok prims =>
          Except.ok (GltfDoc.mk (GltfMesh.mk prims m0.payload :: rest)
            doc.materials doc.buffers doc.payload)
  let doc2 :=
    match remove_unsupported_buffers with
    | none => doc1
    | some subs =>
      GltfDoc.mk doc1.meshes doc1.materials (filterBuffers subs doc1.buffers) doc1.payload
  let updated_mesh_path := splitextRoot mesh_path ++ ("_removed.gltf")
  .ok ([FsEffect.read mesh_path, FsEffect.write updated_mesh_path doc2],
       updated_mesh_path)

/-- Accumulator of the OBJ line loop (mesh.py lines 22-25). -/
structure ObjAcc where
  vertices : List (List ℚ)
  faces : List (List ℤ)
  uvs : List (List ℚ)
  uv_indices : List (List ℤ)
deriving DecidableEq

/-- Handling of one corner token of an OBJ face line (mesh.py lines 41-45): split on
slash, convert the first slot to a 0-based vertex index, and, when a second nonempty
slot exists, convert it to a 0-based UV index.  Later slots are never read. -/
def processFacePart (part : String) : Except PyError (ℤ × Option ℤ) := do
  let indices := pySplitSep part '/'
  let v ← pyIntE (indices.headD (""))
  if 1 < indices.length && indices.getD 1 ("") != ("") then do
    let uv ← pyIntE (indices.getD 1 (""))
    pure (v - 1, some (uv - 1))
  else
    pure (v - 1, none)

/-- The loop over the corner tokens of one face line, accumulating the per-face
vertex-index and UV-index lists in order. -/
def processFaceParts : List String → Except PyError (List ℤ × List ℤ)
  | [] => .ok ([], [])
  | p :: ps => do
    let vu ← processFacePart p
    let rest ← processFaceParts ps
    pure (vu.1 :: rest.1, vu.2.toList ++ rest.2)

/-- One iteration of the OBJ line loop (mesh.py lines 27-48): vertex lines take up
to three floats, texture lines take up to two, face lines are split into corner
tokens; a face contributes to uv_indices only when at least one corner carried a UV
slot.  Other lines are ignored. -/
def objLine (acc : ObjAcc) (line : String) : Except PyError ObjAcc :=
  if listStartsWith line.data ("v ").data then do
    let v ← (((pySplitWs line).drop 1).take 3).mapM pyFloatE
    pure ⟨acc.vertices ++ [v], acc.faces, acc.uvs, acc.uv_indices⟩
  else if listStartsWith line.data ("vt ").data then do
    let vtRow ← (((pySplitWs line).drop 1).take 2).mapM pyFloatE
    pure ⟨acc.vertices, acc.faces, acc.uvs ++ [vtRow], acc.uv_indices⟩
  else if listStartsWith line.data ("f ").data then do
    let fv ← processFaceParts ((pySplitWs line).drop 1)
    pure ⟨acc.vertices, acc.faces ++ [fv.1], acc.uvs,
          if fv.2.isEmpty then acc.uv_indices else acc.uv_indices ++ [fv.2]⟩
  else pure acc

/-- Do all rows have equal length (torch.tensor accepts exactly such nested lists)? -/
def sameLengths {α : Type} (rows : List (List α)) : Bool :=
  match rows with
  | [] => true
  | r :: rest => rest.all (fun q => q.length == r.length)

/-- torch.tensor on a nested integer list: rejects ragged input with ValueError. -/
def intTensor2D (rows : List (List ℤ)) : Except PyError (List (List ℤ)) :=
  if sameLengths rows then .ok rows else .error .valueError

/-- torch.tensor on the parsed vertex rows, converting to float32 (modelled by the
exact cast ℚ → ℝ).  Rows of width other than 3 are modelled as an error: a ragged
nested list raises in torch.tensor itself, and this model fixes three columns for
the downstream code, which indexes column 1 and computes dim-1 norms. -/
noncomputable def vertexTensor (rows : List (List ℚ)) : Except PyError (List Vec3) :=
  match rows.mapM (fun r =>
      match r with
      | [a, b, c] => some (Vec3.mk (a : ℝ) (b : ℝ) (c : ℝ))
      | _ => none) with
  | some vs => .ok vs
  | none => .error .valueError

/-- torch.tensor on the parsed UV rows.  A ragged nested list raises ValueError in
torch.tensor; a rectangular tensor narrower than two columns then raises IndexError
in the UV-bounds prints (mesh.py lines 60-61), which index columns 0 and 1. -/
def uvTensor (rows : List (List ℚ)) : Except PyError (List (ℚ × ℚ)) :=
  match rows.mapM (fun r =>
      match r with
      | [a, b] => some (a, b)
      | _ => none) with
  | some ps => .ok ps
  | none => if sameLengths rows then .error .indexError else .error .valueError

/-- Mesh.__init__ lines 17-80: format dispatch by substring test on the path, OBJ
parsing or OFF loading, tensor creation, UV assignment, and normalization.
`fs_lines` models the contents read from mesh_path by open()/readlines();
`off_mesh` models the result of kal.io.off.import_mesh (an external library call):
its vertices and faces are taken as given, with vt and ft set to None. -/
noncomputable def meshInitCore (fs_lines : List String)
    (off_mesh : List Vec3 × List (List ℤ)) (mesh_path : String)
    (target_scale mesh_dy : ℝ) : Except PyError MeshState := do
  let m0 ←
    if strContains mesh_path (".obj") then do
      let acc ← fs_lines.foldlM objLine ⟨[], [], [], []⟩
      let verts ← vertexTensor acc.vertices
      let faces ← intTensor2D acc.faces
      let vtft ←
        if !acc.uvs.isEmpty && !acc.uv_indices.isEmpty then do
          let vt ← uvTensor acc.uvs
          let ft ← intTensor2D acc.uv_indices
          (pure (some vt, some ft) : Except PyError _)
        else pure (none, none)
      pure (MeshState.mk verts faces vtft.1 vtft.2 mesh_path none 1 ⟨0, 0, 0⟩ 0)
    else if strContains mesh_path (".off") then
      pure (MeshState.mk off_mesh.1 off_mesh.2 none none mesh_path none 1 ⟨0, 0, 0⟩ 0)
    else .error .valueError
  normalizeMesh m0 target_scale mesh_dy

/-- Mesh.__init__ lines 82-91: the artifact relocation block.  It consults
os.path.exists (modelled by `path_exists`), creates the intermediate directory and
moves intermediate artifacts; its final guard then evaluates merge_texture_path,
a name that is defined nowhere in the class, so reaching the block always ends in
NameError.  The effects preceding the raise are dropped by this Except-valued
model; the block is proved unreachable below. -/
def relocationBlock (path_exists : String → Bool) (org_mesh_path mesh_path : String)
    (intermediate_dir : String) : Except PyError (List FsEffect) :=
  let effs1 :=
    if path_exists intermediate_dir then [] else [FsEffect.mkdir intermediate_dir]
  let removedPath := splitextRoot org_mesh_path ++ ("_removed.gltf")
  let effs2 :=
    if path_exists removedPath then [FsEffect.move removedPath intermediate_dir] else []
  let effs3 :=
    if listEndsWith mesh_path.data ("_cvt.obj").data
    then [FsEffect.move mesh_path intermediate_dir] else []
  let effs4 := [FsEffect.move (pyJoin (pyDirname mesh_path) ("material.mtl"))
    intermediate_dir]
  let _ := effs1 ++ effs2 ++ effs3 ++ effs4
  .error .nameError

/-- Mesh.__init__ in full: line 13 initialises is_convert to False (it is never
reassigned anywhere in the method), the loader/normalizer core runs, and the
relocation block is guarded by is_convert.  The returned effect list holds the
relocation block's filesystem effects. -/
noncomputable def meshInit (fs_lines : List String)
    (off_mesh : List Vec3 × List (List ℤ)) (path_exists : String → Bool)
    (mesh_path : String) (target_scale mesh_dy : ℝ)
    (remove_mesh_part_names remove_unsupported_buffers : Option (List String))
    (intermediate_dir : Option String) : Except PyError (MeshState × List FsEffect) := do
  let is_convert := false
  let org_mesh_path := mesh_path
  let m ← meshInitCore fs_lines off_mesh mesh_path target_scale mesh_dy
  if is_convert && intermediate_dir.isSome then do
    let effs ← relocationBlock path_exists org_mesh_path mesh_path
      (intermediate_dir.getD (""))
    pure (m, effs)
  else
    pure (m, [])

/-- First slash-slot of a face corner token (the vertex index slot). -/
def slot0 (p : String) : String := (pySplitSep p '/').headD ("")

/-- Second slash-slot of a face corner token (the UV index slot). -/
def slot1 (p : String) : String := (pySplitSep p '/').getD 1 ("")

/-- Does a face corner token carry a nonempty UV slot (the condition of mesh.py
line 44)? -/
def hasUvSlot (p : String) : Bool :=
  1 < (pySplitSep p '/').length && (pySplitSep p '/').getD 1 ("") != ("")

/-- A mesh state with no UV data at all. -/
noncomputable def uvNoneMesh : MeshState :=
  ⟨[], [], none, none, ⟨[]⟩, none, 1, ⟨0, 0, 0⟩, 0⟩

/-- A mesh state with a nonempty vt but an empty ft tensor. -/
noncomputable def uvBadMesh : MeshState :=
  ⟨[], [], some [(0, 0)], some [], ⟨[]⟩, none, 1, ⟨0, 0, 0⟩, 0⟩

/-- A two-vertex mesh whose vertices coincide (original_scale is zero). -/
noncomputable def degMesh : MeshState :=
  ⟨[⟨1, 2, 3⟩, ⟨1, 2, 3⟩], [], none, none, ⟨[]⟩, none, 1, ⟨0, 0, 0⟩, 0⟩

/-- A mesh used to exercise normalization with a nonzero offset. -/
noncomputable def meanCexMesh : MeshState :=
  ⟨[⟨0, 0, 0⟩, ⟨0, 2, 0⟩], [], none, none, ⟨[]⟩, none, 1, ⟨0, 0, 0⟩, 0⟩

/-- A centred two-vertex mesh of radius one. -/
noncomputable def meanWitMesh : MeshState :=
  ⟨[⟨0, 1, 0⟩, ⟨0, -1, 0⟩], [], none, none, ⟨[]⟩, none, 1, ⟨0, 0, 0⟩, 0⟩

/-- The result of normalizing meanWitMesh with target_scale 1 and mesh_dy 5. -/
noncomputable def meanWitRes : MeshState :=
  match normalizeMesh meanWitMesh 1 5 with
  | .ok r => r
  | .error _ => meanWitMesh

/-- An OBJ file in which only the first of two faces carries UV indices. -/
def c5lines : List String :=
  ["v 0 0 0", "v 1 0 0", "v 0 1 0", "vt 0 0", "vt 1 0", "vt 0 1",
   "f 1/1 2/2 3/3", "f 1 2 3"]

/-- An empty stand-in for the OFF loader result. -/
def offEmpty : List Vec3 × List (List ℤ) := ⟨[], []⟩

/-- An os.path.exists oracle under which nothing exists. -/
def peFalse : String → Bool := fun _ => false

/-- The mesh produced by loading c5lines as an OBJ file. -/
noncomputable def c5M : MeshState :=
  match meshInit c5lines offEmpty peFalse ("m.obj") 1 0 none none none with
  | .ok p => p.1
  | .error _ => uvNoneMesh

/-- A one-vertex, one-face OBJ file. -/
def c7lines : List String := ["v 0 0 0", "f 1 1 1"]

/-- An OFF loader stand-in with a distinctive face list. -/
def c7off1 : List Vec3 × List (List ℤ) := ⟨[], [[9, 9, 9]]⟩

/-- A second OFF loader stand-in with a different face list. -/
def c7off2 : List Vec3 × List (List ℤ) := ⟨[], [[8, 8, 8]]⟩

/-- A glTF document with one mesh of three primitives, two materials and two
buffers. -/
def c6doc : GltfDoc :=
  ⟨[⟨[⟨0, 0⟩, ⟨1, 1⟩, ⟨0, 2⟩], 7⟩],
   [⟨"body", 0⟩, ⟨"wheel_f", 0⟩],
   [⟨"a.bin", 0⟩, ⟨"normalmap.png", 0⟩], 3⟩

/-- A minimal glTF document. -/
def c9doc : GltfDoc := ⟨[], [], [], 0⟩

/-- The material name a primitive's material index resolves to (empty-name default
for out-of-range indices, which filterPrimitives rejects anyway). -/
def materialNameAt (mats : List GltfMaterial) (i : ℕ) : String :=
  (mats.getD i ⟨"", 0⟩).name

/-- The corner tokens of a face line that carries vertex, UV and normal indices. -/
def c8parts : List String := ["1/4/7", "2/5/8", "3/6/9"]

/-- The integer written in the vertex slot of a corner token. -/
def c8a : String → ℤ := fun p => (parseIntChars (slot0 p).data).getD 0

/-- The integer written in the UV slot of a corner token. -/
def c8b : String → ℤ := fun p => (parseIntChars (slot1 p).data).getD 0

/-! Theorems.  Each claim of the specification gets one theorem below; shared
helper lemmas come first. -/

/-- Claim C3: has_valid_uv_mapping returns true iff UV coordinates are present, UV
faces are present, the UV-coordinate sequence is non-empty, and the minimum index
occurring in the UV-face tensor exists and is at least 0. -/
theorem hasValidUvMapping_true_iff (m : MeshState) :
    hasValidUvMapping m = some true ↔
      ∃ vtl ftl mn, m.vt = some vtl ∧ m.ft = some ftl ∧ vtl.length ≠ 0 ∧
        ftMinAll ftl = some mn ∧ 0 ≤ mn := by
  cases hvt : m.vt with
  | none => simp [hasValidUvMapping, hvt]
  | some vtl =>
    cases hft : m.ft with
    | none => simp [hasValidUvMapping, hvt, hft]
    | some ftl =>
      simp only [hasValidUvMapping, hvt, hft]
      by_cases hlen : vtl.length = 0
      · obtain rfl := List.length_eq_zero.mp hlen
        simp
      · cases hmn : ftMinAll ftl with
        | none => simp [hlen, hmn]
        | some mn =>
          by_cases hneg : mn ≤ -1
          · simp only [if_neg hlen, hmn, if_pos hneg]
            constructor
            · intro h; exact absurd h (by simp)
            · rintro ⟨v, f, n, hv, hf, -, hn, hge⟩
              cases hv; cases hf
              rw [hmn] at hn; cases hn
              omega
          · simp only [if_neg hlen, hmn, if_neg hneg]
            constructor
            · intro _
              exact ⟨vtl, ftl, mn, rfl, rfl, hlen, hmn, by omega⟩
            · intro _; trivial

/-- Claim C4 (amended): has_valid_uv_mapping is a pure query that returns a boolean
(false on any violation) for every state in which a present ft tensor is non-empty;
when ft is present but empty (and vt is present and non-empty) the .min() reduction
raises instead. -/
theorem hasValidUvMapping_total_amended (m : MeshState)
    (h : ∀ ftl, m.ft = some ftl → ftl.flatten ≠ []) :
    (hasValidUvMapping m).isSome = true := by
  cases hvt : m.vt with
  | none => simp [hasValidUvMapping, hvt]
  | some vtl =>
    cases hft : m.ft with
    | none => simp [hasValidUvMapping, hvt, hft]
    | some ftl =>
      simp only [hasValidUvMapping, hvt, hft]
      by_cases hlen : vtl.length = 0
      · simp [hlen]
      · have hfl := h ftl hft
        rw [if_neg hlen]
        unfold ftMinAll
        cases hj : ftl.flatten with
        | nil => exact absurd hj hfl
        | cons a l =>
          by_cases hneg : l.foldl min a ≤ -1 <;> simp [hneg]

/-- Witness for C4 (amended): a state with no UV data satisfies the hypothesis and
gets the boolean answer. -/
theorem hasValidUvMapping_total_amended_witness :
    (hasValidUvMapping uvNoneMesh).isSome = true :=
  hasValidUvMapping_total_amended uvNoneMesh (fun ftl hf => by
    simp [uvNoneMesh] at hf)

/-- Counterexample for C4 as stated: on the state whose vt is present and non-empty
but whose ft is the empty tensor, has_valid_uv_mapping does not return false — the
torch .min() reduction raises (modelled by none). -/
theorem hasValidUvMapping_empty_ft_raises :
    hasValidUvMapping uvBadMesh = none := rfl

lemma sum_map_const_of_mem {α : Type} (l : List α) (f : α → ℝ) (c : ℝ)
    (h : ∀ x ∈ l, f x = c) : (l.map f).sum = l.length * c := by
  induction l with
  | nil => simp
  | cons a t ih =>
    simp only [List.map_cons, List.sum_cons, List.length_cons]
    rw [h a (by simp), ih (fun x hx => h x (by simp [hx]))]
    push_cast
    ring

lemma vmean_const (l : List Vec3) (v0 : Vec3) (hne : l ≠ [])
    (h : ∀ v ∈ l, v = v0) : vmean l = v0 := by
  have hn : (l.length : ℝ) ≠ 0 := by
    have := List.length_pos.mpr hne
    positivity
  unfold vmean
  rw [sum_map_const_of_mem l Vec3.x v0.x (fun v hv => by rw [h v hv]),
      sum_map_const_of_mem l Vec3.y v0.y (fun v hv => by rw [h v hv]),
      sum_map_const_of_mem l Vec3.z v0.z (fun v hv => by rw [h v hv])]
  rw [mul_comm ((l.length : ℝ)) v0.x, mul_comm ((l.length : ℝ)) v0.y,
      mul_comm ((l.length : ℝ)) v0.z]
  rw [mul_div_cancel_right₀ _ hn, mul_div_cancel_right₀ _ hn, mul_div_cancel_right₀ _ hn]

lemma foldl_max_of_le (l : List ℝ) (a : ℝ) (h : ∀ x ∈ l, x ≤ a) : l.foldl max a = a := by
  induction l with
  | nil => rfl
  | cons b t ih =>
    simp only [List.foldl_cons]
    rw [max_eq_left (h b (by simp))]
    exact ih (fun x hx => h x (by simp [hx]))

lemma le_foldl_max (l : List ℝ) : ∀ a : ℝ, a ≤ l.foldl max a := by
  induction l with
  | nil => intro a; exact le_refl a
  | cons b t ih =>
    intro a
    simp only [List.foldl_cons]
    exact le_trans (le_max_left a b) (ih (max a b))

lemma degenerate_scale (l : List Vec3) (v0 : Vec3) (hne : l ≠ [])
    (h : ∀ v ∈ l, v = v0) :
    maxListR ((l.map (fun v =>
        Vec3.mk (v.x - (vmean l).x) (v.y - (vmean l).y) (v.z - (vmean l).z))).map
      vnorm) = some 0 := by
  have hc : vmean l = v0 := vmean_const l v0 hne h
  have hmap : ((l.map (fun v =>
      Vec3.mk (v.x - (vmean l).x) (v.y - (vmean l).y) (v.z - (vmean l).z))).map vnorm) =
      l.map (fun _ => (0 : ℝ)) := by
    rw [List.map_map]
    apply List.map_congr_left
    intro v hv
    simp only [Function.comp_apply, hc, h v hv, sub_self, vnorm]
    norm_num
  rw [hmap]
  cases l with
  | nil => exact absurd rfl hne
  | cons a t =>
    simp only [List.map_cons, maxListR]
    rw [foldl_max_of_le _ 0 (by intro x hx; simp at hx; simp [hx])]

/-- Claim C1 (amended): normalize_mesh performs no degeneracy check.  On a mesh
whose vertices all coincide (all recentered norms zero) it returns a result whose
original_scale is 0 instead of raising; the zero divide then yields non-finite
float values at runtime rather than an exception. -/
theorem normalizeMesh_degenerate_no_raise (m : MeshState) (v0 : Vec3) (t dy : ℝ)
    (hne : m.vertices ≠ []) (h : ∀ v ∈ m.vertices, v = v0) :
    Except.map MeshState.original_scale (normalizeMesh m t dy) = .ok 0 := by
  simp only [normalizeMesh]
  rw [degenerate_scale m.vertices v0 hne h]
  rfl

/-- Witness for C1 (amended): the coincident two-vertex mesh normalizes without an
error and stores original_scale 0. -/
theorem normalizeMesh_degenerate_no_raise_witness :
    Except.map MeshState.original_scale (normalizeMesh degMesh 1 0) = .ok 0 :=
  normalizeMesh_degenerate_no_raise degMesh ⟨1, 2, 3⟩ 1 0 (by simp [degMesh])
    (by
      intro v hv
      simp only [degMesh, List.mem_cons, List.not_mem_nil, or_false] at hv
      rcases hv with h | h <;> exact h)

/-- Counterexample for C1 as stated: on the coincident-vertex mesh the spec-modelled
normalizer fails with DegenerateMesh, but the code's normalizer returns a result
(with original_scale 0). -/
theorem normalizeMesh_degenerate_cex :
    normalizeMeshSpec degMesh 1 0 = .error .degenerateMesh ∧
    Except.map MeshState.original_scale (normalizeMesh degMesh 1 0) = .ok 0 := by
  have hall : ∀ v ∈ degMesh.vertices, v = Vec3.mk 1 2 3 := by
    intro v hv
    simp only [degMesh, List.mem_cons, List.not_mem_nil, or_false] at hv
    rcases hv with h | h <;> exact h
  have hs := degenerate_scale degMesh.vertices ⟨1, 2, 3⟩ (by simp [degMesh]) hall
  constructor
  · simp only [normalizeMeshSpec]
    rw [hs]
    simp
  · simp only [normalizeMesh]
    rw [hs]
    rfl

lemma sum_map_affine {α : Type} (l : List α) (f : α → ℝ) (A B : ℝ) :
    (l.map fun v => A * f v + B).sum = A * (l.map f).sum + l.length * B := by
  induction l with
  | nil => simp
  | cons a tl ih =>
    simp only [List.map_cons, List.sum_cons, List.length_cons, ih]
    push_cast
    ring

lemma mean_shift_aux (S n s t dy : ℝ) (hn : n ≠ 0) :
    (t / s) * S + n * (dy - S / n / s * t) = n * dy := by
  have key : S / n * n = S := div_mul_cancel₀ S hn
  set M := S / n with hM
  rw [← key]
  ring

lemma mean_center_component {α : Type} (l : List α) (f : α → ℝ) (s t : ℝ)
    (hn : (l.length : ℝ) ≠ 0) :
    (l.map fun v => (f v - (l.map f).sum / l.length) / s * t).sum / l.length = 0 := by
  have h1 : (fun v => (f v - (l.map f).sum / l.length) / s * t)
      = fun v => (t / s) * f v + (0 - (l.map f).sum / l.length / s * t) := by
    funext v; ring
  rw [h1, sum_map_affine, mean_shift_aux ((l.map f).sum) l.length s t 0 hn]
  simp

lemma mean_shift_component {α : Type} (l : List α) (f : α → ℝ) (s t dy : ℝ)
    (hn : (l.length : ℝ) ≠ 0) :
    (l.map fun v => (f v - (l.map f).sum / l.length) / s * t + dy).sum / l.length = dy := by
  have h1 : (fun v => (f v - (l.map f).sum / l.length) / s * t + dy)
      = fun v => (t / s) * f v + (dy - (l.map f).sum / l.length / s * t) := by
    funext v; ring
  rw [h1, sum_map_affine, mean_shift_aux ((l.map f).sum) l.length s t dy hn,
      mul_comm ((l.length : ℝ)) dy, mul_div_cancel_right₀ dy hn]

lemma vnorm_div_mul (u : Vec3) (s t : ℝ) :
    vnorm ⟨u.x / s * t, u.y / s * t, u.z / s * t⟩ = |t / s| * vnorm u := by
  unfold vnorm
  rw [show (u.x / s * t) ^ 2 + (u.y / s * t) ^ 2 + (u.z / s * t) ^ 2
      = (t / s) ^ 2 * (u.x ^ 2 + u.y ^ 2 + u.z ^ 2) by ring]
  rw [Real.sqrt_mul (sq_nonneg _), Real.sqrt_sq_eq_abs]

lemma foldl_max_map_mul (k : ℝ) (hk : 0 ≤ k) (l : List ℝ) :
    ∀ a : ℝ, (l.map fun x => k * x).foldl max (k * a) = k * l.foldl max a := by
  induction l with
  | nil => intro a; rfl
  | cons b tl ih =>
    intro a
    simp only [List.map_cons, List.foldl_cons]
    rw [← mul_max_of_nonneg _ _ hk, ih]

lemma maxListR_map_mul (k : ℝ) (hk : 0 ≤ k) (l : List ℝ) :
    maxListR (l.map fun x => k * x) = (maxListR l).map (fun x => k * x) := by
  cases l with
  | nil => rfl
  | cons a tl =>
    simp only [maxListR, List.map_cons, Option.map_some]
    exact congrArg some (foldl_max_map_mul k hk tl a)

/-- Claim C2 (amended): after normalize_mesh with a nonnegative target_scale and a
nonzero resulting original_scale, the per-axis mean of the vertices is (0, mesh_dy, 0)
— the zero vector only when mesh_dy is 0 —, the maximum per-vertex norm of the
pre-offset vertices (second axis shifted back by mesh_dy) equals target_scale, and
each vertex's second-axis component equals its centred-and-scaled value plus
mesh_dy. -/
theorem normalizeMesh_mean_norm_offset (m : MeshState) (t dy : ℝ) (ht : 0 ≤ t)
    (r : MeshState) (hr : normalizeMesh m t dy = .ok r) (hs : r.original_scale ≠ 0) :
    vmean r.vertices = ⟨0, dy, 0⟩ ∧
    maxListR (r.vertices.map fun v => vnorm ⟨v.x, v.y - dy, v.z⟩) = some t ∧
    r.vertices.map Vec3.y = m.vertices.map
      (fun v => (v.y - r.original_center.y) / r.original_scale * t + dy) := by
  simp only [normalizeMesh] at hr
  set c := vmean m.vertices with hc
  cases hmx : maxListR ((m.vertices.map fun v =>
      Vec3.mk (v.x - c.x) (v.y - c.y) (v.z - c.z)).map vnorm) with
  | none => rw [hmx] at hr; exact absurd hr (by simp)
  | some s =>
    rw [hmx] at hr
    injection hr with hr
    subst hr
    dsimp only at hs ⊢
    have hne : m.vertices ≠ [] := by
      intro h
      rw [h] at hmx
      simp [maxListR] at hmx
    have hn : ((m.vertices.length : ℕ) : ℝ) ≠ 0 := by
      have := List.length_pos.mpr hne
      positivity
    have hx : ((((m.vertices.map fun v =>
          Vec3.mk (v.x - c.x) (v.y - c.y) (v.z - c.z)).map fun v =>
          Vec3.mk (v.x / s) (v.y / s) (v.z / s)).map fun v =>
          Vec3.mk (v.x * t) (v.y * t) (v.z * t)).map fun v =>
          Vec3.mk v.x (v.y + dy) v.z).map Vec3.x
        = m.vertices.map fun v => (v.x - c.x) / s * t := by
      simp only [List.map_map]
      rfl
    have hy : ((((m.vertices.map fun v =>
          Vec3.mk (v.x - c.x) (v.y - c.y) (v.z - c.z)).map fun v =>
          Vec3.mk (v.x / s) (v.y / s) (v.z / s)).map fun v =>
          Vec3.mk (v.x * t) (v.y * t) (v.z * t)).map fun v =>
          Vec3.mk v.x (v.y + dy) v.z).map Vec3.y
        = m.vertices.map fun v => (v.y - c.y) / s * t + dy := by
      simp only [List.map_map]
      rfl
    have hz : ((((m.vertices.map fun v =>
          Vec3.mk (v.x - c.x) (v.y - c.y) (v.z - c.z)).map fun v =>
          Vec3.mk (v.x / s) (v.y / s) (v.z / s)).map fun v =>
          Vec3.mk (v.x * t) (v.y * t) (v.z * t)).map fun v =>
          Vec3.mk v.x (v.y + dy) v.z).map Vec3.z
        = m.vertices.map fun v => (v.z - c.z) / s * t := by
      simp only [List.map_map]
      rfl
    have hcx : c.x = (m.vertices.map Vec3.x).sum / m.vertices.length := rfl
    have hcy : c.y = (m.vertices.map Vec3.y).sum / m.vertices.length := rfl
    have hcz : c.z = (m.vertices.map Vec3.z).sum / m.vertices.length := rfl
    refine ⟨?_, ?_, ?_⟩
    · -- the mean is (0, dy, 0)
      simp only [vmean, hx, hy, hz, List.length_map]
      rw [hcx, hcy, hcz,
        mean_center_component m.vertices Vec3.x s t hn,
        mean_shift_component m.vertices Vec3.y s t dy hn,
        mean_center_component m.vertices Vec3.z s t hn]
    · -- the maximum pre-offset norm is t
      have hback : ((((m.vertices.map fun v =>
            Vec3.mk (v.x - c.x) (v.y - c.y) (v.z - c.z)).map fun v =>
            Vec3.mk (v.x / s) (v.y / s) (v.z / s)).map fun v =>
            Vec3.mk (v.x * t) (v.y * t) (v.z * t)).map fun v =>
            Vec3.mk v.x (v.y + dy) v.z).map (fun v => vnorm ⟨v.x, v.y - dy, v.z⟩)
          = ((m.vertices.map fun v =>
            Vec3.mk (v.x - c.x) (v.y - c.y) (v.z - c.z)).map vnorm).map
              fun x => |t / s| * x := by
        simp only [List.map_map]
        apply List.map_congr_left
        intro v _
        simp only [Function.comp_apply]
        rw [add_sub_cancel_right]
        exact vnorm_div_mul ⟨v.x - c.x, v.y - c.y, v.z - c.z⟩ s t
      rw [hback, maxListR_map_mul (|t / s|) (abs_nonneg _), hmx,
        show Option.map (fun x => |t / s| * x) (some s) = some (|t / s| * s) from rfl]
      have hs0 : 0 ≤ s := by
        cases hverts : m.vertices with
        | nil => exact absurd hverts hne
        | cons v0 vt =>
          rw [hverts] at hmx
          simp only [List.map_cons, maxListR, Option.some.injEq] at hmx
          calc (0 : ℝ) ≤ vnorm (Vec3.mk (v0.x - c.x) (v0.y - c.y) (v0.z - c.z)) :=
                Real.sqrt_nonneg _
            _ ≤ _ := le_of_le_of_eq (le_foldl_max _ _) hmx
      have hspos : 0 < s := lt_of_le_of_ne hs0 (Ne.symm hs)
      rw [abs_of_nonneg (div_nonneg ht hs0), div_mul_cancel₀ t (ne_of_gt hspos)]
    · -- the second axis is the centred-and-scaled value plus dy
      exact hy

lemma meanWitRes_eval : normalizeMesh meanWitMesh 1 5 = .ok meanWitRes := rfl

lemma meanWitRes_scale : meanWitRes.original_scale = 1 := by
  simp only [meanWitRes, normalizeMesh, meanWitMesh, vmean, vnorm, maxListR,
    List.map_cons, List.map_nil, List.sum_cons, List.sum_nil, List.length_cons,
    List.length_nil, List.foldl_cons, List.foldl_nil]
  norm_num [Real.sqrt_one]

/-- Witness for C2 (amended): on the centred two-point mesh of radius one with
target_scale 1 and mesh_dy 5 the amended properties hold concretely. -/
theorem normalizeMesh_mean_norm_offset_witness :
    vmean meanWitRes.vertices = ⟨0, 5, 0⟩ ∧
    maxListR (meanWitRes.vertices.map fun v => vnorm ⟨v.x, v.y - 5, v.z⟩) = some 1 ∧
    meanWitRes.vertices.map Vec3.y = meanWitMesh.vertices.map
      (fun v => (v.y - meanWitRes.original_center.y) / meanWitRes.original_scale * 1 + 5) :=
  normalizeMesh_mean_norm_offset meanWitMesh 1 5 (by norm_num) meanWitRes
    meanWitRes_eval (by rw [meanWitRes_scale]; norm_num)

/-- Counterexample for C2 as stated: the two-vertex mesh with vertices (0,0,0) and
(0,2,0), normalized with target_scale 1 and mesh_dy 5, has at least one vertex and
original_scale 1 ≠ 0, yet the per-axis mean of the result is (0,5,0), not the zero
vector. -/
theorem normalizeMesh_mean_cex :
    Except.map MeshState.original_scale (normalizeMesh meanCexMesh 1 5) = .ok 1 ∧
    Except.map (fun r => vmean r.vertices) (normalizeMesh meanCexMesh 1 5)
      = .ok ⟨0, 5, 0⟩ ∧
    Vec3.mk (0 : ℝ) 5 0 ≠ ⟨0, 0, 0⟩ := by
  have hmx : maxListR ((meanCexMesh.vertices.map fun v =>
      Vec3.mk (v.x - (vmean meanCexMesh.vertices).x)
        (v.y - (vmean meanCexMesh.vertices).y)
        (v.z - (vmean meanCexMesh.vertices).z)).map vnorm) = some 1 := by
    simp only [meanCexMesh, vmean, List.map_cons, List.map_nil, List.sum_cons,
      List.sum_nil, List.length_cons, List.length_nil, vnorm, maxListR,
      List.foldl_cons, List.foldl_nil]
    norm_num [Real.sqrt_one]
  refine ⟨?_, ?_, ?_⟩
  · simp only [normalizeMesh]
    rw [hmx]
    rfl
  · simp only [normalizeMesh]
    rw [hmx]
    simp only [Except.map, meanCexMesh, List.map_cons, List.map_nil, vmean,
      List.sum_cons, List.sum_nil, List.length_cons, List.length_nil,
      Except.ok.injEq, Vec3.mk.injEq]
    norm_num
  · simp only [ne_eq, Vec3.mk.injEq]
    norm_num

lemma listStartsWith_iff (p : List Char) : ∀ l : List Char,
    listStartsWith l p = true ↔ ∃ rest, l = p ++ rest := by
  induction p with
  | nil => intro l; simp [listStartsWith]
  | cons c cs ih =>
    intro l
    cases l with
    | nil =>
      simp only [listStartsWith]
      constructor
      · intro h; cases h
      · rintro ⟨rest, h⟩; cases h
    | cons a as =>
      simp only [listStartsWith, Bool.and_eq_true, beq_iff_eq, ih as]
      constructor
      · rintro ⟨rfl, rest, rfl⟩; exact ⟨rest, rfl⟩
      · rintro ⟨rest, h⟩
        injection h with h1 h2
        exact ⟨h1, rest, h2⟩

lemma findSub_isSome_iff (sub : List Char) : ∀ hay : List Char,
    (findSub hay sub).isSome = true ↔ ∃ pre post, hay = pre ++ sub ++ post := by
  intro hay
  induction hay with
  | nil =>
    cases sub with
    | nil =>
      constructor
      · intro _
        exact ⟨[], [], rfl⟩
      · intro _
        rfl
    | cons c cs =>
      constructor
      · intro h
        rw [show findSub [] (c :: cs) = none from rfl] at h
        exact absurd h (by decide)
      · rintro ⟨pre, post, h⟩
        rcases List.append_eq_nil.mp (List.append_eq_nil.mp h.symm).1 with ⟨-, h2⟩
        cases h2
  | cons a t ih =>
    simp only [findSub]
    by_cases hst : listStartsWith (a :: t) sub = true
    · obtain ⟨rest, h⟩ := (listStartsWith_iff sub (a :: t)).mp hst
      simp only [if_pos hst, Option.isSome_some, true_iff]
      exact ⟨[], rest, by simpa using h⟩
    · rw [if_neg hst]
      have hmapsome : ((findSub t sub).map (· + 1)).isSome = (findSub t sub).isSome := by
        cases findSub t sub <;> rfl
      rw [hmapsome, ih]
      constructor
      · rintro ⟨pre, post, h⟩
        exact ⟨a :: pre, post, by simp [h]⟩
      · rintro ⟨pre, post, h⟩
        cases pre with
        | nil =>
          exfalso
          apply hst
          apply (listStartsWith_iff sub (a :: t)).mpr
          exact ⟨post, by simpa using h⟩
        | cons b bs =>
          injection h with h1 h2
          exact ⟨bs, post, by simpa using h2⟩

lemma strContains_iff (s sub : String) :
    strContains s sub = true ↔ ∃ pre post, s.data = pre ++ sub.data ++ post := by
  unfold strContains
  exact findSub_isSome_iff sub.data s.data

lemma pyFind_nonneg_iff (s sub : String) :
    (0 ≤ pyFind s sub) ↔ strContains s sub = true := by
  unfold pyFind strContains
  cases h : findSub s.data sub.data with
  | none => simp
  | some i => simp [Int.ofNat_nonneg]

lemma nameMatches_eq_any (name : String) (subs : List String) :
    nameMatches name subs = subs.any (fun sub => strContains name sub) := by
  induction subs with
  | nil => rfl
  | cons r rest ih =>
    simp only [nameMatches, List.any_cons]
    by_cases h : pyFind name r ≥ 0
    · rw [if_pos h]
      rw [(pyFind_nonneg_iff name r).mp h]
      rfl
    · rw [if_neg h, ih]
      have : strContains name r = false := by
        rcases Bool.eq_false_or_eq_true (strContains name r) with hb | hb
        · exact absurd ((pyFind_nonneg_iff name r).mpr hb) h
        · exact hb
      rw [this]
      rfl

lemma get?_eq_some_getD {α : Type} (d : α) : ∀ (l : List α) (n : ℕ), n < l.length →
    l.get? n = some (l.getD n d) := by
  intro l
  induction l with
  | nil => intro n h; simp at h
  | cons a t ih =>
    intro n h
    cases n with
    | zero => rfl
    | succ k =>
      simp only [List.get?, List.getD]
      simpa using ih k (by simpa using h)

lemma filterPrimitives_eq (mats : List GltfMaterial) (subs : List String) :
    ∀ ps : List GltfPrimitive, (∀ p ∈ ps, p.material < mats.length) →
    filterPrimitives mats subs ps = .ok (ps.filter fun p =>
      !(subs.any fun sub => strContains (materialNameAt mats p.material) sub)) := by
  intro ps
  induction ps with
  | nil => intro _; rfl
  | cons p rest ih =>
    intro h
    have hp : p.material < mats.length := h p (by simp)
    simp only [filterPrimitives]
    rw [get?_eq_some_getD ⟨"", 0⟩ mats p.material hp]
    rw [ih (fun q hq => h q (by simp [hq]))]
    dsimp only
    rw [nameMatches_eq_any,
      show (mats.getD p.material ⟨"", 0⟩).name = materialNameAt mats p.material from rfl]
    simp only [List.filter_cons]
    cases hnm : (subs.any fun sub =>
        strContains (materialNameAt mats p.material) sub) with
    | false => simp [hnm]
    | true => simp [hnm]

lemma filterBuffers_eq (subs : List String) : ∀ bs : List GltfBuffer,
    filterBuffers subs bs = bs.filter fun b =>
      !(subs.any fun sub => strContains b.uri sub) := by
  intro bs
  induction bs with
  | nil => rfl
  | cons b rest ih =>
    simp only [filterBuffers, List.filter_cons]
    rw [nameMatches_eq_any, ih]
    cases hnm : (subs.any fun sub => strContains b.uri sub) with
    | false => simp
    | true => simp

/-- Claim C6: with both exclusion lists given, preprocess_gltf keeps exactly the
primitives of the first mesh whose resolved material name contains no excluded
substring, and exactly the buffers whose uri contains no excluded substring, each
in their original order (a List.filter); the containment test is the case-sensitive
substring test. -/
theorem preprocessGltf_filters_exactly (doc : GltfDoc) (path : String)
    (subs bsubs : List String) (m0 : GltfMesh) (rest : List GltfMesh)
    (hm : doc.meshes = m0 :: rest)
    (hmat : ∀ p ∈ m0.primitives, p.material < doc.materials.length) :
    (preprocessGltf doc path (some subs) (some bsubs) =
      .ok ([FsEffect.read path,
            FsEffect.write (splitextRoot path ++ ("_removed.gltf"))
              (GltfDoc.mk
                (GltfMesh.mk (m0.primitives.filter fun p =>
                    !(subs.any fun sub =>
                      strContains (materialNameAt doc.materials p.material) sub))
                  m0.payload :: rest)
                doc.materials
                (doc.buffers.filter fun b =>
                  !(bsubs.any fun sub => strContains b.uri sub))
                doc.payload)],
           splitextRoot path ++ ("_removed.gltf"))) ∧
    (∀ s sub : String, strContains s sub = true ↔
      ∃ pre post, s.data = pre ++ sub.data ++ post) := by
  constructor
  · have h1 : preprocessGltf doc path (some subs) (some bsubs) =
        .ok ([FsEffect.read path,
              FsEffect.write (splitextRoot path ++ ("_removed.gltf"))
                (GltfDoc.mk
                  (GltfMesh.mk (m0.primitives.filter fun p =>
                      !(subs.any fun sub =>
                        strContains (materialNameAt doc.materials p.material) sub))
                    m0.payload :: rest)
                  doc.materials
                  (filterBuffers bsubs doc.buffers)
                  doc.payload)],
             splitextRoot path ++ ("_removed.gltf")) := by
      simp only [preprocessGltf, hm]
      rw [filterPrimitives_eq doc.materials subs m0.primitives hmat]
      rfl
    rw [h1, filterBuffers_eq]
  · exact strContains_iff

/-- Witness for C6: the wheel/normalmap example — the primitive with the "wheel_f"
material and the "normalmap.png" buffer are dropped, everything else is kept in
order. -/
theorem preprocessGltf_filters_exactly_witness :
    preprocessGltf c6doc ("model.gltf") (some ["wheel"]) (some ["normalmap"]) =
      .ok ([FsEffect.read ("model.gltf"),
            FsEffect.write ("model_removed.gltf")
              (GltfDoc.mk [GltfMesh.mk [⟨0, 0⟩, ⟨0, 2⟩] 7]
                [⟨"body", 0⟩, ⟨"wheel_f", 0⟩] [GltfBuffer.mk ("a.bin") 0] 3)],
           ("model_removed.gltf")) := by
  have h := (preprocessGltf_filters_exactly c6doc ("model.gltf") ["wheel"] ["normalmap"]
    ⟨[⟨0, 0⟩, ⟨1, 1⟩, ⟨0, 2⟩], 7⟩ [] rfl (by decide)).1
  rw [h]
  rfl

lemma splitLast_append (sep : Char) : ∀ (l b a : List Char),
    splitLast sep l = some (b, a) → l = b ++ sep :: a := by
  intro l
  induction l with
  | nil => intro b a h; cases h
  | cons c cs ih =>
    intro b a h
    simp only [splitLast] at h
    cases hrec : splitLast sep cs with
    | some pr =>
      obtain ⟨b1, a1⟩ := pr
      rw [hrec] at h
      injection h with h1
      injection h1 with hb ha
      subst hb
      subst ha
      rw [List.cons_append]
      rw [← ih b1 a1 hrec]
    | none =>
      rw [hrec] at h
      by_cases hc : c == sep
      · rw [if_pos hc] at h
        injection h with h1
        injection h1 with hb ha
        subst hb
        subst ha
        rw [List.nil_append]
        rw [show c = sep from by simpa using hc]
      · rw [if_neg hc] at h
        cases h

lemma splitextChars_append (p : List Char) :
    (splitextChars p).1 ++ (splitextChars p).2 = p := by
  unfold splitextChars
  cases h1 : splitLast '/' p with
  | none =>
    dsimp only
    cases h2 : splitLast '.' (p.dropWhile (fun c => c == '.')) with
    | none => simp
    | some pr =>
      obtain ⟨stem, ext⟩ := pr
      have hp := splitLast_append '.' _ _ _ h2
      dsimp only
      rw [List.nil_append, List.append_assoc, ← hp,
        List.takeWhile_append_dropWhile]
  | some db =>
    obtain ⟨d, b⟩ := db
    have hpd := splitLast_append '/' _ _ _ h1
    dsimp only
    cases h2 : splitLast '.' (b.dropWhile (fun c => c == '.')) with
    | none => simp
    | some pr =>
      obtain ⟨stem, ext⟩ := pr
      have hb := splitLast_append '.' _ _ _ h2
      dsimp only
      rw [List.append_assoc, List.append_assoc, ← hb,
        List.takeWhile_append_dropWhile, hpd]
      simp

lemma splitext_append (s : String) : splitextRoot s ++ splitextExt s = s := by
  have h := splitextChars_append s.data
  cases s with
  | mk data =>
    show (⟨(splitextChars data).1⟩ : String) ++ ⟨(splitextChars data).2⟩ = ⟨data⟩
    rw [show ((⟨(splitextChars data).1⟩ : String) ++ ⟨(splitextChars data).2⟩)
        = ⟨(splitextChars data).1 ++ (splitextChars data).2⟩ from rfl]
    rw [h]

lemma preprocessGltf_ok_shape (doc : GltfDoc) (path : String)
    (rm rb : Option (List String)) (effs : List FsEffect) (ret : String)
    (h : preprocessGltf doc path rm rb = .ok (effs, ret)) :
    ret = splitextRoot path ++ ("_removed.gltf") ∧
    ∃ d, effs = [FsEffect.read path, FsEffect.write ret d] := by
  unfold preprocessGltf at h
  cases rm with
  | none =>
    dsimp only at h
    injection h with h1
    injection h1 with he hr
    subst hr
    subst he
    exact ⟨rfl, _, rfl⟩
  | some subs =>
    dsimp only at h
    cases hm : doc.meshes with
    | nil =>
      rw [hm] at h
      dsimp only at h
      cases h
    | cons m0 rest =>
      rw [hm] at h
      dsimp only at h
      cases hf : filterPrimitives doc.materials subs m0.primitives with
      | error e =>
        rw [hf] at h
        dsimp only at h
        cases h
      | ok prims =>
        rw [hf] at h
        dsimp only at h
        injection h with h1
        injection h1 with he hr
        subst hr
        subst he
        exact ⟨rfl, _, rfl⟩

/-- Claim C9: preprocess_gltf only reads the source document and writes one new
document at the sibling path obtained by inserting the _removed marker between the
root and the .gltf extension; it returns that path, which is never equal to the
source path, so the source file is left unchanged. -/
theorem preprocessGltf_writes_new_sibling (doc : GltfDoc) (path : String)
    (rm rb : Option (List String)) (effs : List FsEffect) (ret : String)
    (hext : splitextExt path = (".gltf"))
    (h : preprocessGltf doc path rm rb = .ok (effs, ret)) :
    ret = splitextRoot path ++ ("_removed") ++ splitextExt path ∧ ret ≠ path ∧
    ∃ d, effs = [FsEffect.read path, FsEffect.write ret d] := by
  obtain ⟨hret, d, heffs⟩ := preprocessGltf_ok_shape doc path rm rb effs ret h
  have hpath : splitextRoot path ++ (".gltf") = path := by
    rw [← hext]
    exact splitext_append path
  refine ⟨?_, ?_, d, heffs⟩
  · rw [hret, hext, String.append_assoc,
      show (("_removed") : String) ++ (".gltf") = ("_removed.gltf") from rfl]
  · rw [hret]
    intro heq
    have hcomb : splitextRoot path ++ ("_removed.gltf")
        = splitextRoot path ++ (".gltf") := heq.trans hpath.symm
    have hdata := congrArg String.data hcomb
    rw [String.data_append, String.data_append] at hdata
    have := List.append_cancel_left hdata
    exact absurd this (by decide)

/-- Witness for C9: filtering model.gltf returns model_removed.gltf, a path distinct
from the source. -/
theorem preprocessGltf_writes_new_sibling_witness :
    (("model_removed.gltf") : String)
      = splitextRoot ("model.gltf") ++ ("_removed") ++ splitextExt ("model.gltf") ∧
    (("model_removed.gltf") : String) ≠ ("model.gltf") := by
  have h := preprocessGltf_writes_new_sibling c9doc ("model.gltf") none none
    [FsEffect.read ("model.gltf"), FsEffect.write ("model_removed.gltf") c9doc]
    ("model_removed.gltf") rfl rfl
  exact ⟨h.1, h.2.1⟩

lemma processFacePart_eq (p : String) (va vb : ℤ)
    (h0 : parseIntChars (slot0 p).data = some va)
    (h1 : hasUvSlot p = true → parseIntChars (slot1 p).data = some vb) :
    processFacePart p = .ok (va - 1,
      if hasUvSlot p = true then some (vb - 1) else none) := by
  unfold processFacePart
  dsimp only
  rw [show pyIntE ((pySplitSep p '/').headD ("")) = pyIntE (slot0 p) from rfl]
  rw [show pyIntE (slot0 p) = .ok va from by unfold pyIntE; rw [h0]]
  rw [show ((decide (1 < (pySplitSep p '/').length)) &&
      ((pySplitSep p '/').getD 1 ("") != (""))) = hasUvSlot p from rfl]
  cases huv : hasUvSlot p with
  | true =>
    rw [show pyIntE ((pySplitSep p '/').getD 1 ("")) = pyIntE (slot1 p) from rfl]
    rw [show pyIntE (slot1 p) = .ok vb from by unfold pyIntE; rw [h1 huv]]
    rfl
  | false => rfl

/-- Claim C8: for a face line whose corner tokens all parse, processFaceParts stores
the first slash-slot integer minus 1 as the vertex index of every corner, and, for
exactly the corners with a nonempty second slot, that slot's integer minus 1 as the
UV index; no later slot is consumed. -/
theorem objFace_indices_zero_based (parts : List String) (a b : String → ℤ)
    (h0 : ∀ p ∈ parts, parseIntChars (slot0 p).data = some (a p))
    (h1 : ∀ p ∈ parts, hasUvSlot p = true → parseIntChars (slot1 p).data = some (b p)) :
    processFaceParts parts = .ok (parts.map (fun p => a p - 1),
      (parts.filter hasUvSlot).map (fun p => b p - 1)) := by
  induction parts with
  | nil => rfl
  | cons p ps ih =>
    simp only [processFaceParts]
    rw [processFacePart_eq p (a p) (b p) (h0 p (by simp)) (h1 p (by simp))]
    rw [ih (fun q hq => h0 q (by simp [hq])) (fun q hq => h1 q (by simp [hq]))]
    simp only [List.map_cons, List.filter_cons]
    cases huv : hasUvSlot p with
    | true => rfl
    | false => rfl

/-- Witness for C8: the face corners 1/4/7, 2/5/8, 3/6/9 produce 0-based vertex
indices [0,1,2] and UV indices [3,4,5]; the normal slots 7,8,9 are ignored. -/
theorem objFace_indices_zero_based_witness :
    processFaceParts c8parts = .ok ([0, 1, 2], [3, 4, 5]) := by
  have h := objFace_indices_zero_based c8parts c8a c8b (by decide) (by decide)
  rw [h]
  rfl

lemma except_bind_ok {ε α β : Type} (a : α) (f : α → Except ε β) :
    (Except.ok a >>= f) = f a := rfl

lemma except_bind_pure {ε α β : Type} (a : α) (f : α → Except ε β) :
    ((pure a : Except ε α) >>= f) = f a := rfl

lemma except_bind_error {ε α β : Type} (e : ε) (f : α → Except ε β) :
    ((Except.error e : Except ε α) >>= f) = .error e := rfl

/-- Claim C10: the artifact-relocation branch never executes.  is_convert is
initialised False (mesh.py line 13) and never reassigned, so every constructor run
is the loader/normalizer core with an empty effect list: no mkdir, no moves, and
the undefined name merge_texture_path (whose evaluation inside relocationBlock
would raise NameError) is never evaluated. -/
theorem meshInit_relocation_never_runs (fs_lines : List String)
    (off_mesh : List Vec3 × List (List ℤ)) (path_exists : String → Bool)
    (mesh_path : String) (t dy : ℝ) (rm rb : Option (List String))
    (idir : Option String) :
    meshInit fs_lines off_mesh path_exists mesh_path t dy rm rb idir
      = Except.map (fun m => (m, ([] : List FsEffect)))
          (meshInitCore fs_lines off_mesh mesh_path t dy) := by
  unfold meshInit
  cases h : meshInitCore fs_lines off_mesh mesh_path t dy with
  | error e => rfl
  | ok m => rfl

/-- Claim C7 (amended): dispatch is by substring containment anywhere in the path,
not by extension: when ".obj" occurs in the path the result never depends on the
OFF loader; when ".obj" does not occur but ".off" does, the result never depends on
the OBJ file contents; when neither occurs the constructor fails with ValueError. -/
theorem meshInit_dispatch_substring_amended (fs_lines lines2 : List String)
    (off1 off2 : List Vec3 × List (List ℤ)) (pe : String → Bool) (path : String)
    (t dy : ℝ) (rm rb : Option (List String)) (idir : Option String) :
    (strContains path (".obj") = true →
      meshInit fs_lines off1 pe path t dy rm rb idir
        = meshInit fs_lines off2 pe path t dy rm rb idir) ∧
    (strContains path (".obj") = false → strContains path (".off") = true →
      meshInit fs_lines off1 pe path t dy rm rb idir
        = meshInit lines2 off1 pe path t dy rm rb idir) ∧
    (strContains path (".obj") = false → strContains path (".off") = false →
      meshInit fs_lines off1 pe path t dy rm rb idir = .error .valueError) := by
  refine ⟨fun h1 => ?_, fun h1 h2 => ?_, fun h1 h2 => ?_⟩
  · unfold meshInit meshInitCore
    rw [h1]
    rfl
  · unfold meshInit meshInitCore
    rw [h1, h2]
    rfl
  · unfold meshInit meshInitCore
    rw [h1, h2]
    rfl

/-- Witness for C7 (amended): with ".obj" inside the path the OFF data is ignored;
with neither substring the constructor fails. -/
theorem meshInit_dispatch_substring_amended_witness :
    meshInit c7lines c7off1 peFalse ("a.obj.off") 1 0 none none none
      = meshInit c7lines c7off2 peFalse ("a.obj.off") 1 0 none none none ∧
    meshInit c7lines c7off1 peFalse ("x.glb") 1 0 none none none
      = .error .valueError := by
  constructor
  · exact (meshInit_dispatch_substring_amended c7lines c7lines c7off1 c7off2 peFalse
      ("a.obj.off") 1 0 none none none).1 (by decide)
  · exact (meshInit_dispatch_substring_amended c7lines c7lines c7off1 c7off2 peFalse
      ("x.glb") 1 0 none none none).2.2 (by decide) (by decide)

/-- Counterexample for C7 as stated: the path a.obj.off has native extension .off,
yet the constructor parses it as an OBJ file — the loaded faces come from the OBJ
text, not from the OFF loader's distinctive face list. -/
theorem meshInit_obj_substring_overrides_off_ext :
    splitextExt ("a.obj.off") = (".off") ∧
    Except.map (fun p => p.1.faces)
      (meshInit c7lines c7off1 peFalse ("a.obj.off") 1 0 none none none)
      = .ok [[0, 0, 0]] ∧
    c7off1.2 = [[9, 9, 9]] ∧ ([[0, 0, 0]] : List (List ℤ)) ≠ [[9, 9, 9]] :=
  ⟨rfl, rfl, rfl, by decide⟩

lemma normalizeMesh_preserves (m : MeshState) (t dy : ℝ) (r : MeshState)
    (h : normalizeMesh m t dy = .ok r) :
    r.vt = m.vt ∧ r.ft = m.ft ∧ r.faces = m.faces := by
  simp only [normalizeMesh] at h
  cases hmx : maxListR ((m.vertices.map fun v =>
      Vec3.mk (v.x - (vmean m.vertices).x) (v.y - (vmean m.vertices).y)
        (v.z - (vmean m.vertices).z)).map vnorm) with
  | none => rw [hmx] at h; cases h
  | some s =>
    rw [hmx] at h
    injection h with h1
    subst h1
    exact ⟨rfl, rfl, rfl⟩

lemma intTensor2D_ok (rows out : List (List ℤ)) (h : intTensor2D rows = .ok out) :
    out = rows := by
  unfold intTensor2D at h
  split at h
  · injection h with h1
    exact h1.symm
  · cases h

lemma objLine_inv (acc : ObjAcc) (line : String) (acc1 : ObjAcc)
    (h : objLine acc line = .ok acc1)
    (hlen : acc.uv_indices.length ≤ acc.faces.length) :
    acc1.uv_indices.length ≤ acc1.faces.length := by
  unfold objLine at h
  split at h
  · cases hm : (((pySplitWs line).drop 1).take 3).mapM pyFloatE with
    | error e => rw [hm, except_bind_error] at h; cases h
    | ok v =>
      rw [hm, except_bind_ok] at h
      injection h with h2
      subst h2
      simpa using hlen
  · split at h
    · cases hm : (((pySplitWs line).drop 1).take 2).mapM pyFloatE with
      | error e => rw [hm, except_bind_error] at h; cases h
      | ok v =>
        rw [hm, except_bind_ok] at h
        injection h with h2
        subst h2
        simpa using hlen
    · split at h
      · cases hm : processFaceParts ((pySplitWs line).drop 1) with
        | error e => rw [hm, except_bind_error] at h; cases h
        | ok fv =>
          rw [hm, except_bind_ok] at h
          injection h with h2
          subst h2
          cases hie : fv.2.isEmpty <;>
            simp only [hie, if_true, if_false, Bool.false_eq_true, List.length_append,
              List.length_cons, List.length_nil] <;>
            omega
      · injection h with h2
        subst h2
        exact hlen

lemma objFold_inv : ∀ (lines : List String) (acc acc1 : ObjAcc),
    lines.foldlM objLine acc = .ok acc1 →
    acc.uv_indices.length ≤ acc.faces.length →
    acc1.uv_indices.length ≤ acc1.faces.length := by
  intro lines
  induction lines with
  | nil =>
    intro acc acc1 h hlen
    injection h with h2
    subst h2
    exact hlen
  | cons l ls ih =>
    intro acc acc1 h hlen
    rw [List.foldlM_cons] at h
    cases hstep : objLine acc l with
    | error e => rw [hstep, except_bind_error] at h; cases h
    | ok a2 =>
      rw [hstep, except_bind_ok] at h
      exact ih a2 acc1 h (objLine_inv acc l a2 hstep hlen)

lemma meshInitCore_uv (fs_lines : List String)
    (off_mesh : List Vec3 × List (List ℤ)) (mesh_path : String) (t dy : ℝ)
    (m : MeshState)
    (h : meshInitCore fs_lines off_mesh mesh_path t dy = .ok m) :
    (m.vt = none ↔ m.ft = none) ∧ (m.ft.getD []).length ≤ m.faces.length := by
  unfold meshInitCore at h
  split at h
  · -- OBJ branch
    cases hfold : fs_lines.foldlM objLine ⟨[], [], [], []⟩ with
    | error e => rw [hfold, except_bind_error] at h; cases h
    | ok acc =>
      rw [hfold, except_bind_ok] at h
      cases hv : vertexTensor acc.vertices with
      | error e => rw [hv, except_bind_error] at h; cases h
      | ok verts =>
        rw [hv, except_bind_ok] at h
        cases hfc : intTensor2D acc.faces with
        | error e => rw [hfc, except_bind_error] at h; cases h
        | ok faces =>
          rw [hfc, except_bind_ok] at h
          have hfaces := intTensor2D_ok acc.faces faces hfc
          subst hfaces
          have hinv := objFold_inv fs_lines ⟨[], [], [], []⟩ acc hfold (by simp)
          split at h
          · -- UV data present
            cases huv : uvTensor acc.uvs with
            | error e =>
              rw [huv, except_bind_error] at h
              cases h
            | ok vt =>
              rw [huv, except_bind_ok] at h
              cases hft : intTensor2D acc.uv_indices with
              | error e =>
                rw [hft, except_bind_error] at h
                cases h
              | ok ft =>
                rw [hft, except_bind_ok] at h
                dsimp only at h
                rw [except_bind_pure] at h
                have hftv := intTensor2D_ok acc.uv_indices ft hft
                subst hftv
                obtain ⟨h1, h2, h3⟩ := normalizeMesh_preserves _ t dy m h
                rw [h1, h2, h3]
                constructor
                · simp
                · simpa using hinv
          · -- no UV data
            dsimp only at h
            rw [except_bind_pure] at h
            obtain ⟨h1, h2, h3⟩ := normalizeMesh_preserves _ t dy m h
            rw [h1, h2]
            simp
  · split at h
    · -- OFF branch
      rw [except_bind_pure] at h
      obtain ⟨h1, h2, h3⟩ := normalizeMesh_preserves _ t dy m h
      rw [h1, h2]
      simp
    · -- unsupported extension
      rw [except_bind_error] at h
      cases h

/-- Claim C5 (amended): for every successfully constructed mesh, vt and ft are
present or absent together; when present, ft's triangle count is at most the face
count — it equals the number of face lines that carried UV indices, which can be
strictly less than the number of faces. -/
theorem meshInit_uv_pairing_amended (fs_lines : List String)
    (off_mesh : List Vec3 × List (List ℤ)) (path_exists : String → Bool)
    (mesh_path : String) (t dy : ℝ) (rm rb : Option (List String))
    (idir : Option String) (m : MeshState) (effs : List FsEffect)
    (h : meshInit fs_lines off_mesh path_exists mesh_path t dy rm rb idir
      = .ok (m, effs)) :
    (m.vt = none ↔ m.ft = none) ∧ (m.ft.getD []).length ≤ m.faces.length := by
  unfold meshInit at h
  cases hc : meshInitCore fs_lines off_mesh mesh_path t dy with
  | error e => rw [hc, except_bind_error] at h; cases h
  | ok m0 =>
    rw [hc, except_bind_ok] at h
    have h2 : (pure (m0, ([] : List FsEffect)) : Except PyError _) = .ok (m, effs) := h
    injection h2 with h3
    have hm0 : m0 = m := congrArg Prod.fst h3
    rw [hm0] at hc
    exact meshInitCore_uv fs_lines off_mesh mesh_path t dy m hc

/-- Witness for C5 (amended): the mixed-UV OBJ file constructs successfully and the
amended pairing and count bound hold for it. -/
theorem meshInit_uv_pairing_amended_witness :
    (c5M.vt = none ↔ c5M.ft = none) ∧ (c5M.ft.getD []).length ≤ c5M.faces.length :=
  meshInit_uv_pairing_amended c5lines offEmpty peFalse ("m.obj") 1 0 none none none
    c5M [] rfl

/-- Counterexample for C5 as stated: loading an OBJ file in which only the first of
two faces carries UV indices yields a mesh whose vt is present but whose ft
triangle count (1) differs from the face count (2). -/
theorem meshInit_partial_uv_count_cex :
    Except.map (fun p => (p.1.vt.isSome,
        (p.1.ft.map List.length) == some p.1.faces.length, p.1.faces.length))
      (meshInit c5lines offEmpty peFalse ("m.obj") 1 0 none none none)
      = .ok (true, false, 2) := rfl

end Paint3D
